import Mathlib

/-!
ClearPad I2C transport shim and fingerprint-module detection.

A shallow embedding of

* `drivers/input/touchscreen/clearpad_i2c.c`: the paged register access
  (`clearpad_i2c_set_page`, `clearpad_i2c_read`, `clearpad_i2c_write`,
  `clearpad_i2c_read_block`, `clearpad_i2c_write_block`) and the bus table
  `clearpad_i2c_bus_data`;
* `drivers/input/misc/cei_fp_detect.h`: `cei_fp_module_detect`.

The kernel bus primitives (`i2c_master_send`, `i2c_master_recv`,
`i2c_smbus_read_i2c_block_data`, `i2c_smbus_write_byte_data`) are the
environment: an arbitrary function from the history of the device and the
call made to the integer the primitive returns.  Every call of a primitive,
every `mutex_lock` / `mutex_unlock` of `page_mutex` and every store to the
`page` field is appended to a history kept beside the `page` field, so that
what a driver function did on the bus can be read off afterwards.
-/

namespace Clearpad

/-! ## Constants and macros -/

/-- The macro `CLEARPAD_PAGE_SELECT_REGISTER`, defined as `0xff`. -/
def CLEARPAD_PAGE_SELECT_REGISTER : Nat := 0xff

/-- The macro `CLEARPAD_REG(addr)`, defined as `((addr) & 0xff)`. -/
def CLEARPAD_REG (addr : Nat) : Nat := addr &&& 0xff

/-- The macro `CLEARPAD_PAGE(addr)`, defined as `(((addr) >> 8) & 0xff)`. -/
def CLEARPAD_PAGE (addr : Nat) : Nat := (addr >>> 8) &&& 0xff

/-- Modelled from the spec: the constant `I2C_SMBUS_BLOCK_MAX` of the kernel
header `linux/i2c.h`, which is not among the sources; block reads are of at
most 32 bytes. -/
def I2C_SMBUS_BLOCK_MAX : Int := 32

/-- Modelled from the spec: the errno constant `EIO` of the kernel headers,
which are not among the sources (5 on Linux). -/
def EIO : Int := 5

/-- Modelled from the spec: the errno constant `ENOMEM` of the kernel headers,
which are not among the sources (12 on Linux). -/
def ENOMEM : Int := 12

/-- Wrap-around of an `int` / `s32` result to 32 bits, sign included. -/
def s32 (x : Int) : Int := (x + 2147483648) % 4294967296 - 2147483648

/-! ## The bus and the device state -/

/-- A call of one of the kernel bus primitives, with the arguments the driver
passes.  `i2c_master_send` carries the `count` bytes found at its buffer
argument; the block read carries the offset into `buf` (of the caller) at
which the values are to be stored. -/
inductive BusOp where
  | i2c_master_send (bytes : List Nat)
  | i2c_master_recv (count : Int)
  | i2c_smbus_read_i2c_block_data (command : Nat) (length : Nat) (off : Int)
  | i2c_smbus_write_byte_data (command : Nat) (value : Nat)
  deriving DecidableEq

/-- What a driver function does that is visible from outside. -/
inductive Event where
  | mutex_lock
  | mutex_unlock
  | bus (op : BusOp) (rc : Int)
  | store_page (page : Nat)
  deriving DecidableEq

/-- The behaviour of the bus primitives: the value returned by a call, which
may depend on everything that happened before. -/
abbrev Bus := List Event → BusOp → Int

/-- The `struct clearpad_i2c_t`: the cached `page`, together with the history of
the events on `page_mutex`, on the bus and on `page`, oldest first. -/
structure clearpad_i2c_t where
  page : Nat
  trace : List Event
  deriving DecidableEq

/-- Append one event to the history. -/
def emit (e : Event) (s : clearpad_i2c_t) : clearpad_i2c_t :=
  { s with trace := s.trace ++ [e] }

/-- Call a bus primitive: ask the environment for the result and record the
call with its result. -/
def bus_call (bus : Bus) (op : BusOp) (s : clearpad_i2c_t) : Int × clearpad_i2c_t :=
  let rc := bus s.trace op
  (rc, emit (Event.bus op rc) s)

/-- The call `mutex_lock(&this->page_mutex)`. -/
def mutex_lock (s : clearpad_i2c_t) : clearpad_i2c_t := emit Event.mutex_lock s

/-- The call `mutex_unlock(&this->page_mutex)`. -/
def mutex_unlock (s : clearpad_i2c_t) : clearpad_i2c_t := emit Event.mutex_unlock s

/-! ## The driver functions -/

/-- The function `clearpad_i2c_set_page(dev, page)`.

`txbuf` is the array `{CLEARPAD_PAGE_SELECT_REGISTER, page}` and
`sizeof(txbuf)` is 2.  The comparison `rc != sizeof(txbuf)` converts `rc` to
`size_t`, which maps no `int` other than 2 to 2. -/
def clearpad_i2c_set_page (bus : Bus) (page : Nat) (s : clearpad_i2c_t) :
    Int × clearpad_i2c_t :=
  let txbuf := [CLEARPAD_PAGE_SELECT_REGISTER, page]
  let r := bus_call bus (BusOp.i2c_master_send txbuf) s
  if r.1 ≠ 2 then
    ((if r.1 < 0 then r.1 else - EIO), r.2)
  else
    (0, emit (Event.store_page page) { r.2 with page := page })

/-- The `for (off = 0; off < len; off += rsize)` loop of `clearpad_i2c_read`
and the `rc = off` after it, without the `mutex_unlock` at `exit`.  One unit
of fuel is spent per evaluation of the loop condition.

`reg + off` and `rsize` are converted to the `u8` parameters `command` and
`length` of the block read.  `off += rc` is `int` arithmetic on a value the
bus chose, hence the wrap; the other sums stay between 0 and 287. -/
def clearpad_i2c_read_loop (bus : Bus) (reg : Nat) (len : Nat) :
    Nat → Int → Int → clearpad_i2c_t → Option (Int × clearpad_i2c_t)
  | 0, _, _, _ => none
  | fuel + 1, off, rsize, s =>
    if off < (len : Int) then
      let rsize := if (len : Int) < off + I2C_SMBUS_BLOCK_MAX then (len : Int) - off else rsize
      let r := bus_call bus
        (BusOp.i2c_smbus_read_i2c_block_data (((reg : Int) + off) % 256).toNat
          (rsize % 256).toNat off) s
      if r.1 ≠ rsize then
        if r.1 > 0 then some (s32 (off + r.1), r.2)
        else some (r.1, r.2)
      else clearpad_i2c_read_loop bus reg len fuel (off + rsize) rsize r.2
    else some (off, s)

/-- The function `clearpad_i2c_read(dev, addr, buf, len)` with `u16 addr` and `u8 len`.
The bytes read are not modelled, only where they go (`&buf[off]`) and how
many the bus says there were.  `none` stands for a loop that has not ended
after `len + 1` tests of its condition. -/
def clearpad_i2c_read (bus : Bus) (addr : Nat) (len : Nat) (s : clearpad_i2c_t) :
    Option (Int × clearpad_i2c_t) :=
  let page := CLEARPAD_PAGE addr
  let reg := CLEARPAD_REG addr
  let s := mutex_lock s
  let loop := fun (s : clearpad_i2c_t) =>
    (clearpad_i2c_read_loop bus reg len (len + 1) 0 I2C_SMBUS_BLOCK_MAX s).map
      fun r => (r.1, mutex_unlock r.2)
  if page ≠ s.page then
    let r := clearpad_i2c_set_page bus page s
    if r.1 < 0 then some (r.1, mutex_unlock r.2)
    else loop r.2
  else loop s

/-- The `for (i = 0; i < len; i++)` loop of `clearpad_i2c_write` and the
`rc = i` after it, without the `mutex_unlock` at `exit`.  `i` is a `u8`, so
`i++` wraps at 256, and `reg + i` is converted to the `u8` parameter
`command`. -/
def clearpad_i2c_write_loop (bus : Bus) (reg : Nat) (buf : Nat → Nat) (len : Nat) :
    Nat → Nat → clearpad_i2c_t → Option (Int × clearpad_i2c_t)
  | 0, _, _ => none
  | fuel + 1, i, s =>
    if i < len then
      let r := bus_call bus (BusOp.i2c_smbus_write_byte_data ((reg + i) % 256) (buf i)) s
      if r.1 ≠ 0 then some (r.1, r.2)
      else clearpad_i2c_write_loop bus reg buf len fuel ((i + 1) % 256) r.2
    else some ((i : Int), s)

/-- The function `clearpad_i2c_write(dev, addr, buf, len)` with `u16 addr` and `u8 len`;
`buf i` is the byte `buf[i]`.  `none` stands for a loop that has not ended
after `len + 1` tests of its condition. -/
def clearpad_i2c_write (bus : Bus) (addr : Nat) (buf : Nat → Nat) (len : Nat)
    (s : clearpad_i2c_t) : Option (Int × clearpad_i2c_t) :=
  let reg := CLEARPAD_REG addr
  let s := mutex_lock s
  let loop := fun (s : clearpad_i2c_t) =>
    (clearpad_i2c_write_loop bus reg buf len (len + 1) 0 s).map
      fun r => (r.1, mutex_unlock r.2)
  if CLEARPAD_PAGE addr ≠ s.page then
    let r := clearpad_i2c_set_page bus (CLEARPAD_PAGE addr) s
    if r.1 < 0 then some (r.1, mutex_unlock r.2)
    else loop r.2
  else loop s

/-- The function `clearpad_i2c_read_block(dev, addr, buf, len)` with `u16 addr` and
`int len`.  `txbuf` is the array `{addr & 0xff}` and `sizeof(txbuf)` is 1. -/
def clearpad_i2c_read_block (bus : Bus) (addr : Nat) (len : Int) (s : clearpad_i2c_t) :
    Int × clearpad_i2c_t :=
  let txbuf := [addr &&& 0xff]
  let s := mutex_lock s
  let xfer := fun (s : clearpad_i2c_t) =>
    let r := bus_call bus (BusOp.i2c_master_send txbuf) s
    if r.1 ≠ 1 then ((if r.1 < 0 then r.1 else - EIO), mutex_unlock r.2)
    else
      let r := bus_call bus (BusOp.i2c_master_recv len) r.2
      (r.1, mutex_unlock r.2)
  if CLEARPAD_PAGE addr ≠ s.page then
    let r := clearpad_i2c_set_page bus (CLEARPAD_PAGE addr) s
    if r.1 < 0 then (r.1, mutex_unlock r.2)
    else xfer r.2
  else xfer s

/-- The memory at `txbuf` in `clearpad_i2c_write_block` after
`txbuf[0] = addr & 0xff; memcpy(txbuf + 1, buf, len)`: the `len + 1` bytes of
the allocation, followed by whatever lies behind it (`slack`). -/
def write_block_txbuf (addr : Nat) (buf : Nat → Nat) (len : Nat) (slack : Nat → Nat)
    (i : Nat) : Nat :=
  if i = 0 then addr &&& 0xff
  else if i < len + 1 then buf (i - 1)
  else slack (i - (len + 1))

/-- The value of `sizeof(u8 *)`: 8 on a 64-bit kernel, 4 on a 32-bit one. -/
def sizeof_ptr (lp64 : Bool) : Nat := if lp64 then 8 else 4

/-- The function `clearpad_i2c_write_block(dev, addr, buf, len)` with `u16 addr` and a
non-negative `int len`.

`kzalloc_ok` says whether `kzalloc(len + 1, GFP_KERNEL)` returns memory.
`txbuf` is a `u8 *` here, so the `sizeof(txbuf)` passed to `i2c_master_send`
as the byte count is the size of a pointer. -/
def clearpad_i2c_write_block (bus : Bus) (lp64 : Bool) (kzalloc_ok : Bool)
    (slack : Nat → Nat) (addr : Nat) (buf : Nat → Nat) (len : Nat) (s : clearpad_i2c_t) :
    Int × clearpad_i2c_t :=
  if ¬ kzalloc_ok then (- ENOMEM, s)
  else
    let txbuf := write_block_txbuf addr buf len slack
    let s := mutex_lock s
    let xfer := fun (s : clearpad_i2c_t) =>
      let r := bus_call bus (BusOp.i2c_master_send ((List.range (sizeof_ptr lp64)).map txbuf)) s
      if r.1 < 0 then (r.1, mutex_unlock r.2)
      else (r.1 - 1, mutex_unlock r.2)
    if CLEARPAD_PAGE addr ≠ s.page then
      let r := clearpad_i2c_set_page bus (CLEARPAD_PAGE addr) s
      if r.1 < 0 then (r.1, mutex_unlock r.2)
      else xfer r.2
    else xfer s

/-! ## The bus table -/

/-- A call through one of the function pointers of `clearpad_i2c_bus_data`. -/
inductive BusTableCall where
  | set_page (page : Nat)
  | read (addr : Nat) (len : Nat)
  | write (addr : Nat) (buf : Nat → Nat) (len : Nat)
  | read_block (addr : Nat) (len : Int)
  | write_block (kzalloc_ok : Bool) (slack : Nat → Nat) (addr : Nat) (buf : Nat → Nat)
      (len : Nat)

/-- The table `clearpad_i2c_bus_data`: which function each entry of the table points
to. -/
def clearpad_i2c_bus_data (bus : Bus) (lp64 : Bool) (c : BusTableCall)
    (s : clearpad_i2c_t) : Option (Int × clearpad_i2c_t) :=
  match c with
  | BusTableCall.set_page page => some (clearpad_i2c_set_page bus page s)
  | BusTableCall.read addr len => clearpad_i2c_read bus addr len s
  | BusTableCall.write addr buf len => clearpad_i2c_write bus addr buf len s
  | BusTableCall.read_block addr len => some (clearpad_i2c_read_block bus addr len s)
  | BusTableCall.write_block ok slack addr buf len =>
    some (clearpad_i2c_write_block bus lp64 ok slack addr buf len s)

/-- A sequence of calls through the bus table, one after the other, the
return values dropped. -/
def run_calls (bus : Bus) (lp64 : Bool) :
    List BusTableCall → clearpad_i2c_t → Option clearpad_i2c_t
  | [], s => some s
  | c :: cs, s =>
    (clearpad_i2c_bus_data bus lp64 c s).bind fun r => run_calls bus lp64 cs r.2

/-! ## Reading the history -/

/-- Whether every store to `page` in the history happens between a
`mutex_lock` and the following `mutex_unlock`; `held` says whether the mutex
is held where the history starts. -/
def page_stores_locked : Bool → List Event → Bool
  | _, [] => true
  | _, Event.mutex_lock :: es => page_stores_locked true es
  | _, Event.mutex_unlock :: es => page_stores_locked false es
  | held, Event.store_page _ :: es => held && page_stores_locked held es
  | held, Event.bus _ _ :: es => page_stores_locked held es

/-- A page-select message: a send of two bytes, the first of which is the
page select register. -/
def is_page_select : Event → Bool
  | Event.bus (BusOp.i2c_master_send [r, _]) _ => r == CLEARPAD_PAGE_SELECT_REGISTER
  | _ => false

/-- A data transfer: a call of a bus primitive that is not a page select. -/
def is_data_transfer : Event → Bool
  | Event.bus op rc => ! is_page_select (Event.bus op rc)
  | _ => false

/-- Whether the cached page is `target` at every data transfer of the
history, when it is `cur` where the history starts. -/
def data_on_page (target : Nat) : Nat → List Event → Bool
  | _, [] => true
  | _, Event.store_page p :: es => data_on_page target p es
  | cur, e :: es => (! is_data_transfer e || cur == target) && data_on_page target cur es

/-- The number of bytes the block reads of the history stored: a block read
that returns `rc > 0` stored `rc` bytes. -/
def stored_bytes : List Event → Int
  | [] => 0
  | Event.bus (BusOp.i2c_smbus_read_i2c_block_data _ _ _) rc :: es =>
    (if rc > 0 then rc else 0) + stored_bytes es
  | _ :: es => stored_bytes es

/-- The page discipline of one call that accesses `addr` on the device `s`
and yields `res`: the call returns; among the events `evs` it adds there is a
page-select message exactly when `CLEARPAD_PAGE(addr)` differs from the cached
page, and then it is the select of that page; if that select fails (its result
`rc` is not 2) the call returns the negative code (`rc` if `rc < 0`, else
`-EIO`), makes no data transfer and leaves the cached page as it was; the
cached page is `CLEARPAD_PAGE(addr)` at every data transfer, and at the end if
there was one. -/
def page_discipline (bus : Bus) (addr : Nat) (s : clearpad_i2c_t)
    (res : Option (Int × clearpad_i2c_t)) : Prop :=
  ∃ r s1 evs, res = some (r, s1) ∧ s1.trace = s.trace ++ evs ∧
    (evs.any is_page_select = true ↔ CLEARPAD_PAGE addr ≠ s.page) ∧
    (CLEARPAD_PAGE addr ≠ s.page →
      Event.bus (BusOp.i2c_master_send [0xff, CLEARPAD_PAGE addr])
        (bus (s.trace ++ [Event.mutex_lock])
          (BusOp.i2c_master_send [0xff, CLEARPAD_PAGE addr])) ∈ evs) ∧
    (CLEARPAD_PAGE addr ≠ s.page →
      bus (s.trace ++ [Event.mutex_lock])
        (BusOp.i2c_master_send [0xff, CLEARPAD_PAGE addr]) ≠ 2 →
      r < 0 ∧
      r = (if bus (s.trace ++ [Event.mutex_lock])
            (BusOp.i2c_master_send [0xff, CLEARPAD_PAGE addr]) < 0
          then bus (s.trace ++ [Event.mutex_lock])
            (BusOp.i2c_master_send [0xff, CLEARPAD_PAGE addr])
          else - EIO) ∧
      evs.any is_data_transfer = false ∧ s1.page = s.page) ∧
    data_on_page (CLEARPAD_PAGE addr) s.page evs = true ∧
    (evs.any is_data_transfer = true → s1.page = CLEARPAD_PAGE addr)

/-- The events of a successful page select to `page`, if the cached page
`cur` differs from it. -/
def select_events (cur page : Nat) : List Event :=
  if page ≠ cur then
    [Event.bus (BusOp.i2c_master_send [CLEARPAD_PAGE_SELECT_REGISTER, page]) 2,
     Event.store_page page]
  else []

/-- The block read at offset `off` of a read of `len` bytes from register
`reg`, returning all the bytes asked for. -/
def read_chunk (reg len off : Nat) : Event :=
  Event.bus (BusOp.i2c_smbus_read_i2c_block_data ((reg + off) % 256) (min 32 (len - off)) off)
    ((min 32 (len - off) : Nat) : Int)

/-- The single-byte write of `buf[i]` to register `reg + i`, with its
result. -/
def write_byte (reg : Nat) (buf : Nat → Nat) (i : Nat) (rc : Int) : Event :=
  Event.bus (BusOp.i2c_smbus_write_byte_data ((reg + i) % 256) (buf i)) rc

/-! ## Fingerprint module detection -/

/-- The macro `FP_HW_TYPE_EGISTEC`, defined as 0. -/
def FP_HW_TYPE_EGISTEC : Int := 0

/-- The macro `FP_HW_TYPE_FPC`, defined as 1. -/
def FP_HW_TYPE_FPC : Int := 1

/-- The function `cei_fp_module_detect()`, as a function of the 32-bit value that
`readl_relaxed(cfg_reg + 0x4)` yields after the write of 0 to `cfg_reg` and
the sleep. -/
def cei_fp_module_detect (cei_current_dir : Nat) : Int :=
  let value : Int := ((cei_current_dir &&& 0x1 : Nat) : Int)
  if value ≠ 0 then FP_HW_TYPE_FPC else FP_HW_TYPE_EGISTEC

/-! ## Bus behaviours used as concrete inputs -/

/-- A bus on which every transfer is complete: a send or receive returns its
byte count, a block read its length, a byte write 0. -/
def complete_bus : Bus := fun _ op =>
  match op with
  | BusOp.i2c_master_send bytes => (bytes.length : Int)
  | BusOp.i2c_master_recv count => count
  | BusOp.i2c_smbus_read_i2c_block_data _ length _ => (length : Int)
  | BusOp.i2c_smbus_write_byte_data _ _ => 0

/-- A bus on which every primitive returns 0. -/
def zero_bus : Bus := fun _ _ => 0

/-- A bus on which the block read into `&buf[0]` is complete and every later
block read returns 0; page selects succeed. -/
def zero_after_first_chunk : Bus := fun _ op =>
  match op with
  | BusOp.i2c_smbus_read_i2c_block_data _ length off => if off = 0 then (length : Int) else 0
  | _ => 2

/-- Whether an event is a single-byte register write. -/
def is_byte_write : Event → Bool
  | Event.bus (BusOp.i2c_smbus_write_byte_data _ _) _ => true
  | _ => false

/-- A bus on which the third byte write fails with `-EIO` and everything else
succeeds. -/
def third_write_fails : Bus := fun tr op =>
  match op with
  | BusOp.i2c_smbus_write_byte_data _ _ => if tr.countP is_byte_write = 2 then - EIO else 0
  | _ => 2

/-- A bus on which the block read into `&buf[0]` is complete and every later
block read stores at most 5 bytes; page selects succeed. -/
def five_after_first_chunk : Bus := fun _ op =>
  match op with
  | BusOp.i2c_smbus_read_i2c_block_data _ length off =>
    if off = 0 then (length : Int) else ((min length 5 : Nat) : Int)
  | _ => 2

/-- The buffer whose byte `i` is `i + 1`. -/
def count_up (i : Nat) : Nat := i + 1

/-- Memory that reads as 0. -/
def zeroes (_ : Nat) : Nat := 0

/-- A device whose cached page is 0 and on which nothing has happened yet,
as after `kzalloc` in `clearpad_i2c_probe`. -/
def fresh : clearpad_i2c_t := { page := 0, trace := [] }

/-! ## Addressing -/

theorem CLEARPAD_REG_eq (addr : Nat) : CLEARPAD_REG addr = addr % 256 :=
  Nat.and_pow_two_sub_one_eq_mod addr 8

theorem CLEARPAD_PAGE_eq (addr : Nat) : CLEARPAD_PAGE addr = addr / 256 % 256 := by
  unfold CLEARPAD_PAGE
  rw [Nat.shiftRight_eq_div_pow]
  exact Nat.and_pow_two_sub_one_eq_mod (addr / 2 ^ 8) 8

/-- C7: for a 16-bit `addr`, `CLEARPAD_PAGE(addr)` is `addr / 256` and
`CLEARPAD_REG(addr)` is `addr mod 256`, both are below 256, they recombine to
`addr`, and an address with the same page and register is the same address. -/
theorem clearpad_page_reg_split (addr : Nat) (h : addr < 65536) :
    CLEARPAD_PAGE addr = addr / 256 ∧ CLEARPAD_REG addr = addr % 256 ∧
    CLEARPAD_PAGE addr < 256 ∧ CLEARPAD_REG addr < 256 ∧
    256 * CLEARPAD_PAGE addr + CLEARPAD_REG addr = addr ∧
    ∀ other, other < 65536 → CLEARPAD_PAGE other = CLEARPAD_PAGE addr →
      CLEARPAD_REG other = CLEARPAD_REG addr → other = addr := by
  refine ⟨?_, ?_, ?_, ?_, ?_, ?_⟩
  · rw [CLEARPAD_PAGE_eq]; omega
  · exact CLEARPAD_REG_eq addr
  · rw [CLEARPAD_PAGE_eq]; omega
  · rw [CLEARPAD_REG_eq]; omega
  · rw [CLEARPAD_PAGE_eq, CLEARPAD_REG_eq]; omega
  · intro other ho hp hr
    rw [CLEARPAD_PAGE_eq, CLEARPAD_PAGE_eq] at hp
    rw [CLEARPAD_REG_eq, CLEARPAD_REG_eq] at hr
    omega

theorem clearpad_page_reg_split_witness :
    (0x1234 : Nat) < 65536 ∧ CLEARPAD_PAGE 0x1234 = 0x12 ∧ CLEARPAD_REG 0x1234 = 0x34 :=
  ⟨by decide, by
    have h := clearpad_page_reg_split 0x1234 (by decide)
    exact ⟨h.1, h.2.1⟩⟩

/-! ## Fingerprint module detection -/

/-- C4: `cei_fp_module_detect` returns `FP_HW_TYPE_FPC` (1) when bit 0 of the
value read is 1 and `FP_HW_TYPE_EGISTEC` (0) when it is 0; the result is 0 or
1 and is the result for bit 0 alone, whatever the other bits are. -/
theorem cei_fp_module_detect_bit0 (v : Nat) :
    cei_fp_module_detect v = (if v % 2 = 1 then FP_HW_TYPE_FPC else FP_HW_TYPE_EGISTEC) ∧
    FP_HW_TYPE_FPC = 1 ∧ FP_HW_TYPE_EGISTEC = 0 ∧
    (cei_fp_module_detect v = 0 ∨ cei_fp_module_detect v = 1) ∧
    cei_fp_module_detect v = cei_fp_module_detect (v % 2) := by
  have key : ∀ x : Nat, cei_fp_module_detect x = if x % 2 = 1 then 1 else 0 := by
    intro x
    unfold cei_fp_module_detect FP_HW_TYPE_FPC FP_HW_TYPE_EGISTEC
    have hx : x &&& 0x1 = x % 2 := Nat.and_one_is_mod x
    simp only [hx]
    rcases Nat.mod_two_eq_zero_or_one x with h | h <;> simp [h]
  refine ⟨?_, rfl, rfl, ?_, ?_⟩
  · rw [key]; rfl
  · rw [key]; split <;> simp
  · rw [key, key, Nat.mod_mod]

/-! ## Page select -/

/-- C3: with `rc` the result of the send of `[0xff, p]`, `clearpad_i2c_set_page`
sends that one message; it returns 0 and stores `p` in the cached page exactly
when `rc = 2`; otherwise the cached page is unchanged and the return value is
negative, `rc` itself when `rc < 0` and `-EIO` when `rc >= 0`. -/
theorem clearpad_i2c_set_page_result (bus : Bus) (p : Nat) (s : clearpad_i2c_t) :
    let rc := bus s.trace (BusOp.i2c_master_send [0xff, p])
    let r := clearpad_i2c_set_page bus p s
    ((r.1 = 0 ∧ r.2.page = p) ↔ rc = 2) ∧
    (rc = 2 → r.1 = 0 ∧ r.2.page = p ∧
      r.2.trace = s.trace ++ [Event.bus (BusOp.i2c_master_send [0xff, p]) rc,
        Event.store_page p]) ∧
    (rc ≠ 2 → r.2.page = s.page ∧ r.1 < 0 ∧ (rc < 0 → r.1 = rc) ∧ (0 ≤ rc → r.1 = - EIO) ∧
      r.2.trace = s.trace ++ [Event.bus (BusOp.i2c_master_send [0xff, p]) rc]) := by
  intro rc r
  by_cases h : rc = 2
  · have h2 : bus s.trace (BusOp.i2c_master_send [0xff, p]) = 2 := h
    have hr : r = (0, emit (Event.store_page p)
        { emit (Event.bus (BusOp.i2c_master_send [0xff, p]) 2) s with page := p }) := by
      simp [r, clearpad_i2c_set_page, bus_call, CLEARPAD_PAGE_SELECT_REGISTER, h2]
    simp [hr, h, emit]
  · have h2 : bus s.trace (BusOp.i2c_master_send [0xff, p]) ≠ 2 := h
    have hr : r = ((if rc < 0 then rc else - EIO),
        emit (Event.bus (BusOp.i2c_master_send [0xff, p]) rc) s) := by
      simp [r, rc, clearpad_i2c_set_page, bus_call, CLEARPAD_PAGE_SELECT_REGISTER, h2]
    have hneg : (if rc < 0 then rc else - EIO) < 0 := by
      split
      · assumption
      · simp [ EIO]
    refine ⟨?_, fun h3 => absurd h3 h, fun _ => ?_⟩
    · rw [hr]
      constructor
      · rintro ⟨h0, _⟩
        simp only at h0
        omega
      · intro h3; exact absurd h3 h
    · rw [hr]
      refine ⟨by simp [emit], hneg, ?_, ?_, by simp [emit]⟩
      · intro hlt; simp [hlt]
      · intro hge; simp [not_lt.mpr hge]

theorem clearpad_i2c_set_page_result_witness :
    clearpad_i2c_set_page complete_bus 3 fresh =
      (0, clearpad_i2c_t.mk 3 [Event.bus (BusOp.i2c_master_send [0xff, 3]) 2,
        Event.store_page 3]) ∧
    (clearpad_i2c_set_page zero_bus 3 fresh).1 = - EIO ∧
    (clearpad_i2c_set_page zero_bus 3 fresh).2.page = 0 :=
  ⟨by decide,
    (clearpad_i2c_set_page_result zero_bus 3 fresh).2.2 (by decide) |>.2.2.2.1 (by decide),
    (clearpad_i2c_set_page_result zero_bus 3 fresh).2.2 (by decide) |>.1⟩

/-! ## Evaluations at concrete inputs -/

/-- C1: a write of the 10 bytes `1, ..., 10` to address `0x0010` with page 0
cached hands the bus a message of `sizeof(u8 *)` bytes, not of 11: on a 64-bit
kernel the 8 bytes `0x10, 1, ..., 7`, with return value 7 when the bus sends
them all, and on a 32-bit kernel the 4 bytes `0x10, 1, 2, 3`, with return
value 3. -/
theorem clearpad_i2c_write_block_sends_pointer_size :
    clearpad_i2c_write_block complete_bus true true zeroes 0x0010 count_up 10 fresh =
      (7, { page := 0, trace := [Event.mutex_lock,
        Event.bus (BusOp.i2c_master_send [0x10, 1, 2, 3, 4, 5, 6, 7]) 8,
        Event.mutex_unlock] }) ∧
    clearpad_i2c_write_block complete_bus false true zeroes 0x0010 count_up 10 fresh =
      (3, { page := 0, trace := [Event.mutex_lock,
        Event.bus (BusOp.i2c_master_send [0x10, 1, 2, 3]) 4,
        Event.mutex_unlock] }) := by
  constructor <;> decide

/-- C5: when the data send of `clearpad_i2c_write_block` returns 0, the
function returns -1, which is neither a value the bus returned nor `-EIO` nor
`-ENOMEM`. -/
theorem clearpad_i2c_write_block_zero_send :
    clearpad_i2c_write_block zero_bus true true zeroes 0x0010 count_up 10 fresh =
      (-1, { page := 0, trace := [Event.mutex_lock,
        Event.bus (BusOp.i2c_master_send [0x10, 1, 2, 3, 4, 5, 6, 7]) 0,
        Event.mutex_unlock] }) ∧
    (-1 : Int) ≠ - EIO ∧ (-1 : Int) ≠ - ENOMEM := by
  refine ⟨?_, ?_, ?_⟩ <;> decide

/-- C6: a call of the `set_page` entry of `clearpad_i2c_bus_data` on a fresh
device stores the page without any `mutex_lock` of `page_mutex`, whereas the
`read` entry stores it between `mutex_lock` and `mutex_unlock`. -/
theorem bus_table_set_page_stores_unlocked :
    run_calls complete_bus true [BusTableCall.set_page 1] fresh =
      some { page := 1, trace := [Event.bus (BusOp.i2c_master_send [0xff, 1]) 2,
        Event.store_page 1] } ∧
    page_stores_locked false [Event.bus (BusOp.i2c_master_send [0xff, 1]) 2,
        Event.store_page 1] = false ∧
    (run_calls complete_bus true [BusTableCall.read 0x0100 1] fresh).map
      (fun s => page_stores_locked false s.trace) = some true := by
  refine ⟨?_, ?_, ?_⟩ <;> decide

/-- C8, as stated, fails for `clearpad_i2c_write_block`: when `kzalloc` fails
the function returns `-ENOMEM` at once, so that no page-select message is sent
although `CLEARPAD_PAGE(addr)` differs from the cached page. -/
theorem clearpad_i2c_write_block_enomem_no_page_select :
    CLEARPAD_PAGE 0x0100 ≠ fresh.page ∧
    clearpad_i2c_write_block complete_bus true false zeroes 0x0100 count_up 10 fresh =
      (- ENOMEM, fresh) ∧
    (clearpad_i2c_write_block complete_bus true false zeroes 0x0100 count_up 10
      fresh).2.trace.any is_page_select = false := by
  refine ⟨?_, ?_, ?_⟩ <;> decide

/-- C10, as stated, fails: on a read of 64 bytes whose first block read stores
32 bytes and whose second returns 0, every result is at most the size asked
for, yet `clearpad_i2c_read` returns 0, which is neither negative nor the 32
bytes stored. -/
theorem clearpad_i2c_read_zero_after_first_chunk :
    (∀ tr c n o, zero_after_first_chunk tr (BusOp.i2c_smbus_read_i2c_block_data c n o)
      ≤ (n : Int)) ∧
    clearpad_i2c_read zero_after_first_chunk 0x0000 64 fresh =
      some (0, { page := 0, trace := [Event.mutex_lock,
        Event.bus (BusOp.i2c_smbus_read_i2c_block_data 0 32 0) 32,
        Event.bus (BusOp.i2c_smbus_read_i2c_block_data 32 32 32) 0,
        Event.mutex_unlock] }) ∧
    stored_bytes [Event.mutex_lock,
        Event.bus (BusOp.i2c_smbus_read_i2c_block_data 0 32 0) 32,
        Event.bus (BusOp.i2c_smbus_read_i2c_block_data 32 32 32) 0,
        Event.mutex_unlock] = 32 ∧
    ¬ ∃ r s, clearpad_i2c_read zero_after_first_chunk 0x0000 64 fresh = some (r, s) ∧
      (r < 0 ∨ r = stored_bytes s.trace) := by
  have hrun : clearpad_i2c_read zero_after_first_chunk 0x0000 64 fresh =
      some (0, { page := 0, trace := [Event.mutex_lock,
        Event.bus (BusOp.i2c_smbus_read_i2c_block_data 0 32 0) 32,
        Event.bus (BusOp.i2c_smbus_read_i2c_block_data 32 32 32) 0,
        Event.mutex_unlock] }) := by decide
  refine ⟨?_, hrun, by decide, ?_⟩
  · intro tr c n o
    simp only [zero_after_first_chunk]
    split <;> omega
  · rintro ⟨r, s, hrs, hor⟩
    rw [hrun] at hrs
    injection hrs with hrs
    injection hrs with h1 h2
    subst h1
    subst h2
    revert hor
    decide


/-! ## Auxiliary facts -/

theorem range_map_succ {α : Type} (f : Nat → α) (n : Nat) :
    (List.range (n + 1)).map f = f 0 :: (List.range n).map (fun j => f (j + 1)) := by
  rw [List.range_succ_eq_map, List.map_cons, List.map_map]
  rfl

theorem set_page_ok (bus : Bus) (p : Nat) (s : clearpad_i2c_t)
    (h : bus s.trace (BusOp.i2c_master_send [0xff, p]) = 2) :
    clearpad_i2c_set_page bus p s =
      (0, { page := p, trace := s.trace ++ [Event.bus (BusOp.i2c_master_send [0xff, p]) 2,
        Event.store_page p] }) := by
  simp [clearpad_i2c_set_page, bus_call, CLEARPAD_PAGE_SELECT_REGISTER, h, emit]

theorem set_page_fail (bus : Bus) (p : Nat) (s : clearpad_i2c_t)
    (h : bus s.trace (BusOp.i2c_master_send [0xff, p]) ≠ 2) :
    clearpad_i2c_set_page bus p s =
      ((if bus s.trace (BusOp.i2c_master_send [0xff, p]) < 0
          then bus s.trace (BusOp.i2c_master_send [0xff, p]) else - EIO),
        { page := s.page, trace := s.trace ++
          [Event.bus (BusOp.i2c_master_send [0xff, p])
            (bus s.trace (BusOp.i2c_master_send [0xff, p]))] }) := by
  simp [clearpad_i2c_set_page, bus_call, CLEARPAD_PAGE_SELECT_REGISTER, h, emit]

theorem set_page_fail_neg (bus : Bus) (p : Nat) (s : clearpad_i2c_t)
    (h : bus s.trace (BusOp.i2c_master_send [0xff, p]) ≠ 2) :
    (clearpad_i2c_set_page bus p s).1 < 0 := by
  rw [set_page_fail bus p s h]
  simp only
  split
  · assumption
  · simp [ EIO]

/-! ## The write loop -/

theorem write_loop_spec (bus : Bus) (reg : Nat) (buf : Nat → Nat) (len : Nat)
    (hlen : len ≤ 255) : ∀ (fuel i : Nat) (s : clearpad_i2c_t), i ≤ len → len - i < fuel →
    ∃ m, i ≤ m ∧ m ≤ len ∧
      ((m = len ∧ clearpad_i2c_write_loop bus reg buf len fuel i s =
          some ((len : Int), { page := s.page, trace := s.trace ++
            (List.range (m - i)).map (fun j => write_byte reg buf (i + j) 0) })) ∨
       (m < len ∧ ∃ rc, rc ≠ 0 ∧
          rc = bus (s.trace ++ (List.range (m - i)).map (fun j => write_byte reg buf (i + j) 0))
            (BusOp.i2c_smbus_write_byte_data ((reg + m) % 256) (buf m)) ∧
          clearpad_i2c_write_loop bus reg buf len fuel i s =
          some (rc, { page := s.page, trace := s.trace ++
            (List.range (m - i)).map (fun j => write_byte reg buf (i + j) 0) ++
            [write_byte reg buf m rc] }))) := by
  intro fuel
  induction fuel with
  | zero => intro i s _ h; omega
  | succ fuel ih =>
    intro i s hi hf
    by_cases hlt : i < len
    · by_cases hrc : bus s.trace (BusOp.i2c_smbus_write_byte_data ((reg + i) % 256) (buf i)) = 0
      · have hmod : (i + 1) % 256 = i + 1 := by omega
        obtain ⟨m, hm1, hm2, hm⟩ := ih (i + 1)
          (emit (write_byte reg buf i 0) s) (by omega) (by omega)
        have hsplit : (List.range (m - i)).map (fun j => write_byte reg buf (i + j) 0) =
            write_byte reg buf i 0 ::
              (List.range (m - (i + 1))).map (fun j => write_byte reg buf (i + 1 + j) 0) := by
          have : m - i = (m - (i + 1)) + 1 := by omega
          rw [this, range_map_succ]
          simp only [Nat.add_zero, List.cons.injEq, true_and]
          apply List.map_congr_left
          intro j _
          congr 1
          omega
        have hstep : clearpad_i2c_write_loop bus reg buf len (fuel + 1) i s =
            clearpad_i2c_write_loop bus reg buf len fuel (i + 1)
              (emit (write_byte reg buf i 0) s) := by
          simp [clearpad_i2c_write_loop, hlt, bus_call, hrc, hmod, write_byte]
        refine ⟨m, by omega, hm2, ?_⟩
        rw [hstep, hsplit]
        simpa [emit] using hm
      · refine ⟨i, le_refl i, hi, Or.inr ⟨hlt, _, hrc, ?_, ?_⟩⟩
        · simp
        · simp [clearpad_i2c_write_loop, hlt, bus_call, hrc, write_byte, emit]
    · have : i = len := by omega
      subst this
      refine ⟨i, le_refl i, le_refl i, Or.inl ⟨rfl, ?_⟩⟩
      simp [clearpad_i2c_write_loop]


theorem write_entry (bus : Bus) (addr : Nat) (buf : Nat → Nat) (len : Nat) (s : clearpad_i2c_t)
    (hsel : CLEARPAD_PAGE addr ≠ s.page →
      bus (s.trace ++ [Event.mutex_lock]) (BusOp.i2c_master_send [0xff, CLEARPAD_PAGE addr]) = 2) :
    clearpad_i2c_write bus addr buf len s =
      (clearpad_i2c_write_loop bus (CLEARPAD_REG addr) buf len (len + 1) 0
        { page := CLEARPAD_PAGE addr,
          trace := s.trace ++ Event.mutex_lock :: select_events s.page (CLEARPAD_PAGE addr) }).map
        fun r => (r.1, mutex_unlock r.2) := by
  by_cases h : CLEARPAD_PAGE addr = s.page
  · simp [clearpad_i2c_write, mutex_lock, emit, h, select_events]
  · have h2 := set_page_ok bus (CLEARPAD_PAGE addr) (mutex_lock s) (hsel h)
    simp only [mutex_lock, emit] at h2
    simp [clearpad_i2c_write, mutex_lock, emit, h, select_events, h2,
      CLEARPAD_PAGE_SELECT_REGISTER]

/-- C9: when any needed page select succeeds and `len` is at most 255,
`clearpad_i2c_write` returns, having written `buf[i]` to register
`(CLEARPAD_REG(addr) + i) mod 256` for `i = 0, 1, ...` in this order: either
all `len` writes returned 0 and it returns `len`, or the writes before the
`m`-th returned 0, the `m`-th is the last one and returned the non-zero `rc`,
and it returns `rc`. -/
theorem clearpad_i2c_write_sequence (bus : Bus) (addr : Nat) (buf : Nat → Nat) (len : Nat)
    (s : clearpad_i2c_t) (hlen : len ≤ 255)
    (hsel : CLEARPAD_PAGE addr ≠ s.page →
      bus (s.trace ++ [Event.mutex_lock]) (BusOp.i2c_master_send [0xff, CLEARPAD_PAGE addr]) = 2) :
    ∃ m, m ≤ len ∧
      ((m = len ∧ clearpad_i2c_write bus addr buf len s =
          some ((len : Int), clearpad_i2c_t.mk (CLEARPAD_PAGE addr)
            (s.trace ++ Event.mutex_lock :: select_events s.page (CLEARPAD_PAGE addr) ++
              (List.range m).map (fun i => write_byte (CLEARPAD_REG addr) buf i 0) ++
              [Event.mutex_unlock]))) ∨
       (m < len ∧ ∃ rc, rc ≠ 0 ∧
          rc = bus (s.trace ++ Event.mutex_lock :: select_events s.page (CLEARPAD_PAGE addr) ++
              (List.range m).map (fun i => write_byte (CLEARPAD_REG addr) buf i 0))
            (BusOp.i2c_smbus_write_byte_data ((CLEARPAD_REG addr + m) % 256) (buf m)) ∧
          clearpad_i2c_write bus addr buf len s =
          some (rc, clearpad_i2c_t.mk (CLEARPAD_PAGE addr)
            (s.trace ++ Event.mutex_lock :: select_events s.page (CLEARPAD_PAGE addr) ++
              (List.range m).map (fun i => write_byte (CLEARPAD_REG addr) buf i 0) ++
              [write_byte (CLEARPAD_REG addr) buf m rc, Event.mutex_unlock])))) := by
  obtain ⟨m, _, hm2, hm⟩ := write_loop_spec bus (CLEARPAD_REG addr) buf len hlen (len + 1) 0
    (clearpad_i2c_t.mk (CLEARPAD_PAGE addr)
      (s.trace ++ Event.mutex_lock :: select_events s.page (CLEARPAD_PAGE addr)))
    (Nat.zero_le _) (by omega)
  refine ⟨m, hm2, ?_⟩
  rw [write_entry bus addr buf len s hsel]
  simp only [Nat.sub_zero, Nat.zero_add] at hm
  rcases hm with ⟨h1, h2⟩ | ⟨h1, rc, h2, h3, h4⟩
  · left
    refine ⟨h1, ?_⟩
    rw [h2]
    simp [mutex_unlock, emit]
  · right
    refine ⟨h1, rc, h2, ?_, ?_⟩
    · rw [h3]
    · rw [h4]
      simp [mutex_unlock, emit]

theorem clearpad_i2c_write_sequence_witness :
    (5 : Nat) ≤ 255 ∧
    clearpad_i2c_write third_write_fails 0x01fe count_up 5 fresh =
      some (-5, clearpad_i2c_t.mk 1 [Event.mutex_lock,
        Event.bus (BusOp.i2c_master_send [0xff, 1]) 2, Event.store_page 1,
        Event.bus (BusOp.i2c_smbus_write_byte_data 0xfe 1) 0,
        Event.bus (BusOp.i2c_smbus_write_byte_data 0xff 2) 0,
        Event.bus (BusOp.i2c_smbus_write_byte_data 0x00 3) (-5),
        Event.mutex_unlock]) ∧
    ∃ m, m ≤ 5 ∧
      ((m = 5 ∧ clearpad_i2c_write third_write_fails 0x01fe count_up 5 fresh =
          some (((5 : Nat) : Int), clearpad_i2c_t.mk (CLEARPAD_PAGE 0x01fe)
            (fresh.trace ++ Event.mutex_lock ::
              select_events fresh.page (CLEARPAD_PAGE 0x01fe) ++
              (List.range m).map (fun i => write_byte (CLEARPAD_REG 0x01fe) count_up i 0) ++
              [Event.mutex_unlock]))) ∨
       (m < 5 ∧ ∃ rc, rc ≠ 0 ∧
          rc = third_write_fails
            (fresh.trace ++ Event.mutex_lock ::
              select_events fresh.page (CLEARPAD_PAGE 0x01fe) ++
              (List.range m).map (fun i => write_byte (CLEARPAD_REG 0x01fe) count_up i 0))
            (BusOp.i2c_smbus_write_byte_data ((CLEARPAD_REG 0x01fe + m) % 256) (count_up m)) ∧
          clearpad_i2c_write third_write_fails 0x01fe count_up 5 fresh =
          some (rc, clearpad_i2c_t.mk (CLEARPAD_PAGE 0x01fe)
            (fresh.trace ++ Event.mutex_lock ::
              select_events fresh.page (CLEARPAD_PAGE 0x01fe) ++
              (List.range m).map (fun i => write_byte (CLEARPAD_REG 0x01fe) count_up i 0) ++
              [write_byte (CLEARPAD_REG 0x01fe) count_up m rc, Event.mutex_unlock])))) :=
  ⟨by decide, by decide,
    clearpad_i2c_write_sequence third_write_fails 0x01fe count_up 5 fresh (by decide)
      (fun _ => by decide)⟩


/-! ## The read loop -/

theorem read_loop_done (bus : Bus) (reg len fuel : Nat) (off rsize : Int) (s : clearpad_i2c_t)
    (h : ¬ off < (len : Int)) :
    clearpad_i2c_read_loop bus reg len (fuel + 1) off rsize s = some (off, s) := by
  simp [clearpad_i2c_read_loop, h]

theorem read_loop_step (bus : Bus) (reg len fuel : Nat) (off rsize : Int) (s : clearpad_i2c_t)
    (h : off < (len : Int)) (rs : Int)
    (hrs : rs = if (len : Int) < off + 32 then (len : Int) - off else rsize)
    (op : BusOp)
    (hop : op = BusOp.i2c_smbus_read_i2c_block_data (((reg : Int) + off) % 256).toNat
      (rs % 256).toNat off) :
    clearpad_i2c_read_loop bus reg len (fuel + 1) off rsize s =
      if bus s.trace op ≠ rs then
        if bus s.trace op > 0 then
          some (s32 (off + bus s.trace op), emit (Event.bus op (bus s.trace op)) s)
        else some (bus s.trace op, emit (Event.bus op (bus s.trace op)) s)
      else clearpad_i2c_read_loop bus reg len fuel (off + rs) rs
        (emit (Event.bus op (bus s.trace op)) s) := by
  subst hrs
  subst hop
  simp only [clearpad_i2c_read_loop, h, bus_call, I2C_SMBUS_BLOCK_MAX, if_true]

theorem read_loop_exact (bus : Bus) (reg len : Nat)
    (hbus : ∀ tr c n o, bus tr (BusOp.i2c_smbus_read_i2c_block_data c n o) = (n : Int)) :
    ∀ (fuel off : Nat) (rsize : Int) (s : clearpad_i2c_t), off ≤ len →
      (rsize = 32 ∨ len ≤ off) → len - off < fuel →
      clearpad_i2c_read_loop bus reg len fuel (off : Int) rsize s =
        some ((len : Int), clearpad_i2c_t.mk s.page (s.trace ++
          (List.range ((len - off + 31) / 32)).map (fun k => read_chunk reg len (off + 32 * k)))) := by
  intro fuel
  induction fuel with
  | zero => intro off rsize s _ _ h; omega
  | succ fuel ih =>
    intro off rsize s hoff hrs hf
    by_cases hlt : off < len
    · have hlt2 : (off : Int) < (len : Int) := by omega
      have hcmd : (((reg : Int) + (off : Int)) % 256).toNat = (reg + off) % 256 := by omega
      have hrs2 : (if (len : Int) < (off : Int) + 32 then (len : Int) - off else rsize) =
          ((min 32 (len - off) : Nat) : Int) := by
        split <;> omega
      have hlen2 : ((((min 32 (len - off) : Nat) : Int)) % 256).toNat = min 32 (len - off) := by
        omega
      rw [read_loop_step bus reg len fuel off rsize s hlt2 _ hrs2.symm _ rfl]
      rw [hcmd, hlen2, hbus]
      simp only [ne_eq, not_true_eq_false, if_false]
      have hnext : (off : Int) + ((min 32 (len - off) : Nat) : Int) =
          ((off + min 32 (len - off) : Nat) : Int) := by omega
      rw [hnext, ih (off + min 32 (len - off)) _ _ (by omega) (by omega) (by omega)]
      have hlist : (List.range ((len - off + 31) / 32)).map
            (fun k => read_chunk reg len (off + 32 * k)) =
          read_chunk reg len off ::
            (List.range ((len - (off + min 32 (len - off)) + 31) / 32)).map
              (fun k => read_chunk reg len (off + min 32 (len - off) + 32 * k)) := by
        by_cases hfull : 32 ≤ len - off
        · have h1 : (len - off + 31) / 32 = (len - (off + min 32 (len - off)) + 31) / 32 + 1 := by
            omega
          rw [h1, range_map_succ]
          simp only [Nat.mul_zero, Nat.add_zero, List.cons.injEq, true_and]
          apply List.map_congr_left
          intro k _
          congr 1
          omega
        · have h1 : (len - off + 31) / 32 = 1 := by omega
          have h2 : (len - (off + min 32 (len - off)) + 31) / 32 = 0 := by omega
          rw [h1, h2]
          rfl
      rw [hlist]
      simp [emit, read_chunk]
    · have : off = len := by omega
      subst this
      rw [read_loop_done bus reg off fuel _ _ s (by omega)]
      simp


theorem read_entry (bus : Bus) (addr len : Nat) (s : clearpad_i2c_t)
    (hsel : CLEARPAD_PAGE addr ≠ s.page →
      bus (s.trace ++ [Event.mutex_lock]) (BusOp.i2c_master_send [0xff, CLEARPAD_PAGE addr]) = 2) :
    clearpad_i2c_read bus addr len s =
      (clearpad_i2c_read_loop bus (CLEARPAD_REG addr) len (len + 1) 0 32
        (clearpad_i2c_t.mk (CLEARPAD_PAGE addr)
          (s.trace ++ Event.mutex_lock :: select_events s.page (CLEARPAD_PAGE addr)))).map
        fun r => (r.1, mutex_unlock r.2) := by
  by_cases h : CLEARPAD_PAGE addr = s.page
  · simp [clearpad_i2c_read, mutex_lock, emit, h, select_events, I2C_SMBUS_BLOCK_MAX]
  · have h2 := set_page_ok bus (CLEARPAD_PAGE addr) (mutex_lock s) (hsel h)
    simp only [mutex_lock, emit] at h2
    simp [clearpad_i2c_read, mutex_lock, emit, h, select_events, h2,
      CLEARPAD_PAGE_SELECT_REGISTER, I2C_SMBUS_BLOCK_MAX]

theorem read_entry_fail (bus : Bus) (addr len : Nat) (s : clearpad_i2c_t)
    (h : CLEARPAD_PAGE addr ≠ s.page)
    (hsel : bus (s.trace ++ [Event.mutex_lock])
      (BusOp.i2c_master_send [0xff, CLEARPAD_PAGE addr]) ≠ 2) :
    clearpad_i2c_read bus addr len s =
      some ((clearpad_i2c_set_page bus (CLEARPAD_PAGE addr) (mutex_lock s)).1,
        clearpad_i2c_t.mk s.page (s.trace ++ [Event.mutex_lock,
          Event.bus (BusOp.i2c_master_send [0xff, CLEARPAD_PAGE addr])
            (bus (s.trace ++ [Event.mutex_lock])
              (BusOp.i2c_master_send [0xff, CLEARPAD_PAGE addr])),
          Event.mutex_unlock])) := by
  have hneg := set_page_fail_neg bus (CLEARPAD_PAGE addr) (mutex_lock s) hsel
  have h2 := set_page_fail bus (CLEARPAD_PAGE addr) (mutex_lock s) hsel
  have h3 : (clearpad_i2c_set_page bus (CLEARPAD_PAGE addr) (mutex_lock s)).2 =
      clearpad_i2c_t.mk s.page (s.trace ++ [Event.mutex_lock,
          Event.bus (BusOp.i2c_master_send [0xff, CLEARPAD_PAGE addr])
            (bus (s.trace ++ [Event.mutex_lock])
              (BusOp.i2c_master_send [0xff, CLEARPAD_PAGE addr]))]) := by
    rw [h2]; simp [mutex_lock, emit]
  have hp : (mutex_lock s).page = s.page := rfl
  simp only [clearpad_i2c_read, hp, ne_eq, h, not_false_eq_true, if_true, hneg, h3]
  simp [mutex_unlock, emit]

/-- C2: when any needed page select succeeds and every block read returns the
size asked for, `clearpad_i2c_read` of `len <= 255` bytes returns `len` after
`ceil(len / 32)` block reads, the `k`-th at command byte
`(CLEARPAD_REG(addr) + 32 k) mod 256`, of size `min(32, len - 32 k)`, into
`buf` at offset `32 k`; each chunk ends where the next begins and the last
ends at `len`. -/
theorem clearpad_i2c_read_chunks (bus : Bus) (addr len : Nat) (s : clearpad_i2c_t)
    (hlen : len ≤ 255)
    (hsel : CLEARPAD_PAGE addr ≠ s.page →
      bus (s.trace ++ [Event.mutex_lock]) (BusOp.i2c_master_send [0xff, CLEARPAD_PAGE addr]) = 2)
    (hbus : ∀ tr c n o, bus tr (BusOp.i2c_smbus_read_i2c_block_data c n o) = (n : Int)) :
    clearpad_i2c_read bus addr len s =
      some ((len : Int), clearpad_i2c_t.mk (CLEARPAD_PAGE addr)
        (s.trace ++ Event.mutex_lock :: select_events s.page (CLEARPAD_PAGE addr) ++
          (List.range ((len + 31) / 32)).map
            (fun k => Event.bus
              (BusOp.i2c_smbus_read_i2c_block_data ((CLEARPAD_REG addr + 32 * k) % 256)
                (min 32 (len - 32 * k)) ((32 * k : Nat) : Int))
              ((min 32 (len - 32 * k) : Nat) : Int)) ++
          [Event.mutex_unlock])) ∧
    (∀ k, k + 1 < (len + 31) / 32 → 32 * k + min 32 (len - 32 * k) = 32 * (k + 1)) ∧
    (∀ k, k + 1 = (len + 31) / 32 → 32 * k + min 32 (len - 32 * k) = len) ∧
    (len = 0 → (len + 31) / 32 = 0) := by
  refine ⟨?_, fun k hk => by omega, fun k hk => by omega, fun h => by omega⟩
  have hl := read_loop_exact bus (CLEARPAD_REG addr) len hbus (len + 1) 0 32
    (clearpad_i2c_t.mk (CLEARPAD_PAGE addr)
      (s.trace ++ Event.mutex_lock :: select_events s.page (CLEARPAD_PAGE addr)))
    (Nat.zero_le _) (Or.inl rfl) (by omega)
  rw [read_entry bus addr len s hsel]
  simp only [Nat.cast_zero, Nat.sub_zero, Nat.zero_add] at hl
  rw [hl]
  simp [mutex_unlock, emit, read_chunk]

theorem clearpad_i2c_read_chunks_witness :
    (70 : Nat) ≤ 255 ∧
    clearpad_i2c_read complete_bus 0x01f0 70 fresh =
      some (70, clearpad_i2c_t.mk 1 [Event.mutex_lock,
        Event.bus (BusOp.i2c_master_send [0xff, 1]) 2, Event.store_page 1,
        Event.bus (BusOp.i2c_smbus_read_i2c_block_data 0xf0 32 0) 32,
        Event.bus (BusOp.i2c_smbus_read_i2c_block_data 0x10 32 32) 32,
        Event.bus (BusOp.i2c_smbus_read_i2c_block_data 0x30 6 64) 6,
        Event.mutex_unlock]) :=
  ⟨by decide,
    (clearpad_i2c_read_chunks complete_bus 0x01f0 70 fresh (by decide) (fun _ => by decide)
      (fun _ _ _ _ => rfl)).1.trans (by decide)⟩


theorem stored_bytes_append (a b : List Event) :
    stored_bytes (a ++ b) = stored_bytes a + stored_bytes b := by
  induction a with
  | nil => simp [stored_bytes]
  | cons e es ih =>
    cases e with
    | bus op rc =>
      cases op <;> simp [stored_bytes, ih]
      omega
    | _ => simp [stored_bytes, ih]

theorem read_loop_total (bus : Bus) (reg len : Nat) :
    ∀ (fuel : Nat) (off rsize : Int) (s : clearpad_i2c_t), 1 ≤ rsize → 0 < fuel →
      (len : Int) - off < fuel →
      ∃ r evs, clearpad_i2c_read_loop bus reg len fuel off rsize s =
          some (r, clearpad_i2c_t.mk s.page (s.trace ++ evs)) ∧
        evs.all is_data_transfer = true := by
  intro fuel
  induction fuel with
  | zero => intro off rsize s _ h0 _; omega
  | succ fuel ih =>
    intro off rsize s hrs _ hf
    by_cases hlt : off < (len : Int)
    · obtain ⟨rs, hrsdef⟩ : ∃ rs : Int,
          rs = if (len : Int) < off + 32 then (len : Int) - off else rsize := ⟨_, rfl⟩
      obtain ⟨op, hop⟩ : ∃ op : BusOp,
          op = BusOp.i2c_smbus_read_i2c_block_data (((reg : Int) + off) % 256).toNat
            (rs % 256).toNat off := ⟨_, rfl⟩
      have hrs2 : 1 ≤ rs := by
        rw [hrsdef]; split <;> omega
      have hdt : is_data_transfer (Event.bus op (bus s.trace op)) = true := by
        rw [hop]; rfl
      rw [read_loop_step bus reg len fuel off rsize s hlt rs hrsdef op hop]
      by_cases hrc : bus s.trace op = rs
      · obtain ⟨r, evs, h1, h2⟩ := ih (off + rs) rs
          (emit (Event.bus op (bus s.trace op)) s) hrs2 (by omega) (by push_cast at hf ⊢; omega)
        refine ⟨r, Event.bus op (bus s.trace op) :: evs, ?_, ?_⟩
        · simp only [hrc, ne_eq, not_true_eq_false, if_false]
          rw [hrc] at h1
          rw [h1]; simp [emit]
        · simp only [List.all_cons, hdt, h2, Bool.and_self]
      · simp only [ne_eq, hrc, not_false_eq_true, if_true]
        by_cases hpos : bus s.trace op > 0
        · exact ⟨s32 (off + bus s.trace op), [Event.bus op (bus s.trace op)],
            by simp [hpos, emit], by simp [hdt]⟩
        · exact ⟨bus s.trace op, [Event.bus op (bus s.trace op)],
            by simp [hpos, emit], by simp [hdt]⟩
    · exact ⟨off, [], by rw [read_loop_done bus reg len fuel off rsize s hlt]; simp, by simp⟩

theorem read_loop_stored (bus : Bus) (reg len : Nat) (hlen : len ≤ 255)
    (hbus : ∀ tr c n o, bus tr (BusOp.i2c_smbus_read_i2c_block_data c n o) ≤ (n : Int)) :
    ∀ (fuel off : Nat) (rsize : Int) (s : clearpad_i2c_t), off ≤ len →
      (rsize = 32 ∨ len ≤ off) → len - off < fuel →
      ∃ r evs, clearpad_i2c_read_loop bus reg len fuel (off : Int) rsize s =
          some (r, clearpad_i2c_t.mk s.page (s.trace ++ evs)) ∧
        (r < 0 ∨ r = (off : Int) + stored_bytes evs ∨
          (r = 0 ∧ ∃ c n o, 0 < n ∧
            Event.bus (BusOp.i2c_smbus_read_i2c_block_data c n o) 0 ∈ evs)) := by
  intro fuel
  induction fuel with
  | zero => intro off rsize s _ _ h; omega
  | succ fuel ih =>
    intro off rsize s hoff hrs hf
    by_cases hlt : off < len
    · have hlt2 : (off : Int) < (len : Int) := by omega
      have hrs2 : ((min 32 (len - off) : Nat) : Int) =
          (if (len : Int) < (off : Int) + 32 then (len : Int) - off else rsize) := by
        split <;> omega
      have hcmd : (((reg : Int) + (off : Int)) % 256).toNat = (reg + off) % 256 := by omega
      have hlen2 : ((((min 32 (len - off) : Nat) : Int)) % 256).toNat = min 32 (len - off) := by
        omega
      obtain ⟨op, hop⟩ : ∃ op : BusOp,
          op = BusOp.i2c_smbus_read_i2c_block_data ((reg + off) % 256)
            (min 32 (len - off)) (off : Int) := ⟨_, rfl⟩
      have hop2 : op = BusOp.i2c_smbus_read_i2c_block_data (((reg : Int) + (off : Int)) % 256).toNat
          ((((min 32 (len - off) : Nat) : Int)) % 256).toNat (off : Int) := by
        rw [hcmd, hlen2, hop]
      have hle : bus s.trace op ≤ ((min 32 (len - off) : Nat) : Int) := by
        rw [hop]; exact hbus _ _ _ _
      rw [read_loop_step bus reg len fuel off rsize s hlt2 _ hrs2 op hop2]
      by_cases hrc : bus s.trace op = ((min 32 (len - off) : Nat) : Int)
      · have hnext : (off : Int) + ((min 32 (len - off) : Nat) : Int) =
            ((off + min 32 (len - off) : Nat) : Int) := by omega
        obtain ⟨r, evs, h1, h2⟩ := ih (off + min 32 (len - off))
          ((min 32 (len - off) : Nat) : Int)
          (emit (Event.bus op (bus s.trace op)) s) (by omega) (by omega) (by omega)
        refine ⟨r, Event.bus op (bus s.trace op) :: evs, ?_, ?_⟩
        · simp only [hrc, ne_eq, not_true_eq_false, if_false]
          rw [hrc] at h1
          rw [hnext, h1]; simp [emit]
        · rcases h2 with h2 | h2 | ⟨h2, c, n, o, hn, hmem⟩
          · exact Or.inl h2
          · right; left
            rw [h2, hop]
            simp only [stored_bytes]
            rw [← hop, hrc]
            have : ((min 32 (len - off) : Nat) : Int) > 0 := by omega
            simp only [this, if_true]
            omega
          · right; right
            exact ⟨h2, c, n, o, hn, List.mem_cons_of_mem _ hmem⟩
      · simp only [ne_eq, hrc, not_false_eq_true, if_true]
        by_cases hpos : bus s.trace op > 0
        · refine ⟨s32 ((off : Int) + bus s.trace op), [Event.bus op (bus s.trace op)], ?_, ?_⟩
          · simp only [hpos, if_true, emit]
          · right; left
            rw [hop]
            simp only [stored_bytes]
            rw [← hop]
            simp only [hpos, if_true, s32]
            omega
        · refine ⟨bus s.trace op, [Event.bus op (bus s.trace op)], ?_, ?_⟩
          · simp only [hpos, if_false, emit]
          · by_cases hz : bus s.trace op = 0
            · right; right
              refine ⟨hz, (reg + off) % 256, min 32 (len - off), (off : Int), by omega, ?_⟩
              rw [hz, hop]
              simp
            · left; omega
    · have : off = len := by omega
      subst this
      exact ⟨(off : Int), [],
        by rw [read_loop_done bus reg off fuel _ _ s (by omega)]; simp,
        Or.inr (Or.inl (by simp [stored_bytes]))⟩

/-- C10, amended: for `len <= 255` and block reads that never return more
than the size asked for, `clearpad_i2c_read` returns, and its return value is
a negative error code, or 0 after a block read of non-zero size that returned
0, or the total number of bytes the block reads of the call stored. -/
theorem clearpad_i2c_read_returns_stored (bus : Bus) (addr len : Nat) (s : clearpad_i2c_t)
    (hlen : len ≤ 255)
    (hbus : ∀ tr c n o, bus tr (BusOp.i2c_smbus_read_i2c_block_data c n o) ≤ (n : Int)) :
    ∃ r s1 evs, clearpad_i2c_read bus addr len s = some (r, s1) ∧
      s1.trace = s.trace ++ evs ∧
      (r < 0 ∨ r = stored_bytes evs ∨
        (r = 0 ∧ ∃ c n o, 0 < n ∧
          Event.bus (BusOp.i2c_smbus_read_i2c_block_data c n o) 0 ∈ evs)) := by
  by_cases hsel : CLEARPAD_PAGE addr ≠ s.page →
      bus (s.trace ++ [Event.mutex_lock]) (BusOp.i2c_master_send [0xff, CLEARPAD_PAGE addr]) = 2
  · obtain ⟨r, evs, h1, h2⟩ := read_loop_stored bus (CLEARPAD_REG addr) len hlen hbus
      (len + 1) 0 32
      (clearpad_i2c_t.mk (CLEARPAD_PAGE addr)
        (s.trace ++ Event.mutex_lock :: select_events s.page (CLEARPAD_PAGE addr)))
      (Nat.zero_le _) (Or.inl rfl) (by omega)
    simp only [Nat.cast_zero, zero_add] at h1 h2
    refine ⟨r, clearpad_i2c_t.mk (CLEARPAD_PAGE addr)
        (s.trace ++ (Event.mutex_lock :: select_events s.page (CLEARPAD_PAGE addr) ++ evs ++
          [Event.mutex_unlock])),
      Event.mutex_lock :: select_events s.page (CLEARPAD_PAGE addr) ++ evs ++
        [Event.mutex_unlock], ?_, rfl, ?_⟩
    · rw [read_entry bus addr len s hsel, h1]
      simp [mutex_unlock, emit]
    · have hst : stored_bytes (Event.mutex_lock :: select_events s.page (CLEARPAD_PAGE addr) ++
          evs ++ [Event.mutex_unlock]) = stored_bytes evs := by
        have h0 : stored_bytes (select_events s.page (CLEARPAD_PAGE addr)) = 0 := by
          unfold select_events
          split <;> simp [stored_bytes]
        rw [List.cons_append, List.cons_append]
        simp only [stored_bytes]
        rw [stored_bytes_append, stored_bytes_append, h0]
        simp [stored_bytes]
      rw [hst]
      rcases h2 with h2 | h2 | ⟨h2, c, n, o, hn, hmem⟩
      · exact Or.inl h2
      · exact Or.inr (Or.inl h2)
      · refine Or.inr (Or.inr ⟨h2, c, n, o, hn, ?_⟩)
        simp [hmem]
  · have hne : CLEARPAD_PAGE addr ≠ s.page := fun h => hsel (fun h2 => absurd h h2)
    have hrc : bus (s.trace ++ [Event.mutex_lock])
        (BusOp.i2c_master_send [0xff, CLEARPAD_PAGE addr]) ≠ 2 := fun h => hsel (fun _ => h)
    refine ⟨_, _, _, read_entry_fail bus addr len s hne hrc, rfl, Or.inl ?_⟩
    exact set_page_fail_neg bus (CLEARPAD_PAGE addr) (mutex_lock s) hrc

theorem clearpad_i2c_read_returns_stored_witness :
    (70 : Nat) ≤ 255 ∧
    clearpad_i2c_read five_after_first_chunk 0x0000 70 fresh =
      some (37, clearpad_i2c_t.mk 0 [Event.mutex_lock,
        Event.bus (BusOp.i2c_smbus_read_i2c_block_data 0 32 0) 32,
        Event.bus (BusOp.i2c_smbus_read_i2c_block_data 32 32 32) 5,
        Event.mutex_unlock]) ∧
    ∃ r s1 evs, clearpad_i2c_read five_after_first_chunk 0x0000 70 fresh = some (r, s1) ∧
      s1.trace = fresh.trace ++ evs ∧
      (r < 0 ∨ r = stored_bytes evs ∨
        (r = 0 ∧ ∃ c n o, 0 < n ∧
          Event.bus (BusOp.i2c_smbus_read_i2c_block_data c n o) 0 ∈ evs)) :=
  ⟨by decide, by decide,
    clearpad_i2c_read_returns_stored five_after_first_chunk 0x0000 70 fresh (by decide)
      (fun tr c n o => by
        simp only [five_after_first_chunk]
        split <;> omega)⟩


/-! ## The page discipline -/

theorem not_page_select_of_data (e : Event) (h : is_data_transfer e = true) :
    is_page_select e = false := by
  cases e with
  | bus op rc => simpa [is_data_transfer] using h
  | _ => rfl

theorem any_page_select_of_all_data (data : List Event)
    (h : data.all is_data_transfer = true) : data.any is_page_select = false := by
  induction data with
  | nil => rfl
  | cons e es ih =>
    simp only [List.all_cons, Bool.and_eq_true] at h
    simp only [List.any_cons, not_page_select_of_data e h.1, ih h.2, Bool.or_self]

theorem data_on_page_all_data (t : Nat) (data rest : List Event)
    (h : data.all is_data_transfer = true) :
    data_on_page t t (data ++ rest) = data_on_page t t rest := by
  induction data with
  | nil => rfl
  | cons e es ih =>
    simp only [List.all_cons, Bool.and_eq_true] at h
    cases e with
    | store_page p => simp [is_data_transfer] at h
    | bus op rc => simp [data_on_page, ih h.2]
    | mutex_lock => simp [data_on_page, ih h.2]
    | mutex_unlock => simp [data_on_page, ih h.2]

theorem page_discipline_ok (bus : Bus) (addr : Nat) (s : clearpad_i2c_t)
    (res : Option (Int × clearpad_i2c_t)) (r : Int) (data : List Event)
    (hsel : CLEARPAD_PAGE addr ≠ s.page →
      bus (s.trace ++ [Event.mutex_lock]) (BusOp.i2c_master_send [0xff, CLEARPAD_PAGE addr]) = 2)
    (hdata : data.all is_data_transfer = true)
    (hres : res = some (r, clearpad_i2c_t.mk (CLEARPAD_PAGE addr)
      (s.trace ++ (Event.mutex_lock :: select_events s.page (CLEARPAD_PAGE addr) ++ data ++
        [Event.mutex_unlock])))) :
    page_discipline bus addr s res := by
  have hany := any_page_select_of_all_data data hdata
  have hdop := data_on_page_all_data (CLEARPAD_PAGE addr) data [Event.mutex_unlock] hdata
  refine ⟨r, _, _, hres, rfl, ?_, ?_, ?_, ?_, ?_⟩
  · by_cases h : CLEARPAD_PAGE addr = s.page
    · simp [select_events, h, is_page_select, hany]
    · simp [select_events, h, is_page_select, CLEARPAD_PAGE_SELECT_REGISTER]
  · intro h
    rw [hsel h]
    simp [select_events, h, CLEARPAD_PAGE_SELECT_REGISTER]
  · intro h hne
    exact absurd (hsel h) hne
  · by_cases h : CLEARPAD_PAGE addr = s.page
    · have h2 : select_events s.page (CLEARPAD_PAGE addr) = [] := by simp [select_events, h]
      rw [h2]
      simp only [List.append_nil, List.cons_append, data_on_page, is_data_transfer,
        Bool.not_false, Bool.true_or, Bool.true_and]
      rw [← h]
      change data_on_page _ _ (data ++ [Event.mutex_unlock]) = true
      rw [hdop]
      simp [data_on_page, is_data_transfer]
    · have h2 : select_events s.page (CLEARPAD_PAGE addr) =
          [Event.bus (BusOp.i2c_master_send [0xff, CLEARPAD_PAGE addr]) 2,
            Event.store_page (CLEARPAD_PAGE addr)] := by
        simp [select_events, h, CLEARPAD_PAGE_SELECT_REGISTER]
      rw [h2]
      simp only [List.cons_append, List.nil_append, data_on_page, is_data_transfer,
        is_page_select, CLEARPAD_PAGE_SELECT_REGISTER, Bool.not_false, Bool.true_or,
        Bool.true_and, beq_self_eq_true, Bool.not_true, Bool.false_or]
      change data_on_page _ _ (data ++ [Event.mutex_unlock]) = true
      rw [hdop]
      simp [data_on_page, is_data_transfer]
  · intro _; rfl

theorem page_discipline_fail (bus : Bus) (addr : Nat) (s : clearpad_i2c_t)
    (res : Option (Int × clearpad_i2c_t))
    (h : CLEARPAD_PAGE addr ≠ s.page)
    (hsel : bus (s.trace ++ [Event.mutex_lock])
      (BusOp.i2c_master_send [0xff, CLEARPAD_PAGE addr]) ≠ 2)
    (hres : res = some ((clearpad_i2c_set_page bus (CLEARPAD_PAGE addr) (mutex_lock s)).1,
        clearpad_i2c_t.mk s.page (s.trace ++ [Event.mutex_lock,
          Event.bus (BusOp.i2c_master_send [0xff, CLEARPAD_PAGE addr])
            (bus (s.trace ++ [Event.mutex_lock])
              (BusOp.i2c_master_send [0xff, CLEARPAD_PAGE addr])),
          Event.mutex_unlock]))) :
    page_discipline bus addr s res := by
  refine ⟨_, _, _, hres, rfl, ?_, ?_, ?_, ?_, ?_⟩
  · simp [is_page_select, CLEARPAD_PAGE_SELECT_REGISTER, h]
  · intro _; simp
  · intro _ _
    refine ⟨set_page_fail_neg bus (CLEARPAD_PAGE addr) (mutex_lock s) hsel, ?_, ?_, rfl⟩
    · rw [set_page_fail bus (CLEARPAD_PAGE addr) (mutex_lock s) hsel]
      rfl
    · simp [is_data_transfer, is_page_select, CLEARPAD_PAGE_SELECT_REGISTER]
  · simp [data_on_page, is_data_transfer, is_page_select, CLEARPAD_PAGE_SELECT_REGISTER]
  · simp [is_data_transfer, is_page_select, CLEARPAD_PAGE_SELECT_REGISTER]


theorem write_entry_fail (bus : Bus) (addr : Nat) (buf : Nat → Nat) (len : Nat)
    (s : clearpad_i2c_t) (h : CLEARPAD_PAGE addr ≠ s.page)
    (hsel : bus (s.trace ++ [Event.mutex_lock])
      (BusOp.i2c_master_send [0xff, CLEARPAD_PAGE addr]) ≠ 2) :
    clearpad_i2c_write bus addr buf len s =
      some ((clearpad_i2c_set_page bus (CLEARPAD_PAGE addr) (mutex_lock s)).1,
        clearpad_i2c_t.mk s.page (s.trace ++ [Event.mutex_lock,
          Event.bus (BusOp.i2c_master_send [0xff, CLEARPAD_PAGE addr])
            (bus (s.trace ++ [Event.mutex_lock])
              (BusOp.i2c_master_send [0xff, CLEARPAD_PAGE addr])),
          Event.mutex_unlock])) := by
  have hneg := set_page_fail_neg bus (CLEARPAD_PAGE addr) (mutex_lock s) hsel
  have h2 := set_page_fail bus (CLEARPAD_PAGE addr) (mutex_lock s) hsel
  have h3 : (clearpad_i2c_set_page bus (CLEARPAD_PAGE addr) (mutex_lock s)).2 =
      clearpad_i2c_t.mk s.page (s.trace ++ [Event.mutex_lock,
          Event.bus (BusOp.i2c_master_send [0xff, CLEARPAD_PAGE addr])
            (bus (s.trace ++ [Event.mutex_lock])
              (BusOp.i2c_master_send [0xff, CLEARPAD_PAGE addr]))]) := by
    rw [h2]; simp [mutex_lock, emit]
  have hp : (mutex_lock s).page = s.page := rfl
  simp only [clearpad_i2c_write, hp, ne_eq, h, not_false_eq_true, if_true, hneg, h3]
  simp [mutex_unlock, emit]

theorem read_block_entry_fail (bus : Bus) (addr : Nat) (len : Int)
    (s : clearpad_i2c_t) (h : CLEARPAD_PAGE addr ≠ s.page)
    (hsel : bus (s.trace ++ [Event.mutex_lock])
      (BusOp.i2c_master_send [0xff, CLEARPAD_PAGE addr]) ≠ 2) :
    clearpad_i2c_read_block bus addr len s =
      ((clearpad_i2c_set_page bus (CLEARPAD_PAGE addr) (mutex_lock s)).1,
        clearpad_i2c_t.mk s.page (s.trace ++ [Event.mutex_lock,
          Event.bus (BusOp.i2c_master_send [0xff, CLEARPAD_PAGE addr])
            (bus (s.trace ++ [Event.mutex_lock])
              (BusOp.i2c_master_send [0xff, CLEARPAD_PAGE addr])),
          Event.mutex_unlock])) := by
  have hneg := set_page_fail_neg bus (CLEARPAD_PAGE addr) (mutex_lock s) hsel
  have h2 := set_page_fail bus (CLEARPAD_PAGE addr) (mutex_lock s) hsel
  have h3 : (clearpad_i2c_set_page bus (CLEARPAD_PAGE addr) (mutex_lock s)).2 =
      clearpad_i2c_t.mk s.page (s.trace ++ [Event.mutex_lock,
          Event.bus (BusOp.i2c_master_send [0xff, CLEARPAD_PAGE addr])
            (bus (s.trace ++ [Event.mutex_lock])
              (BusOp.i2c_master_send [0xff, CLEARPAD_PAGE addr]))]) := by
    rw [h2]; simp [mutex_lock, emit]
  have hp : (mutex_lock s).page = s.page := rfl
  simp only [clearpad_i2c_read_block, hp, ne_eq, h, not_false_eq_true, if_true, hneg, h3]
  simp [mutex_unlock, emit]

theorem write_block_entry_fail (bus : Bus) (lp64 : Bool) (slack : Nat → Nat) (addr : Nat)
    (buf : Nat → Nat) (len : Nat)
    (s : clearpad_i2c_t) (h : CLEARPAD_PAGE addr ≠ s.page)
    (hsel : bus (s.trace ++ [Event.mutex_lock])
      (BusOp.i2c_master_send [0xff, CLEARPAD_PAGE addr]) ≠ 2) :
    clearpad_i2c_write_block bus lp64 true slack addr buf len s =
      ((clearpad_i2c_set_page bus (CLEARPAD_PAGE addr) (mutex_lock s)).1,
        clearpad_i2c_t.mk s.page (s.trace ++ [Event.mutex_lock,
          Event.bus (BusOp.i2c_master_send [0xff, CLEARPAD_PAGE addr])
            (bus (s.trace ++ [Event.mutex_lock])
              (BusOp.i2c_master_send [0xff, CLEARPAD_PAGE addr])),
          Event.mutex_unlock])) := by
  have hneg := set_page_fail_neg bus (CLEARPAD_PAGE addr) (mutex_lock s) hsel
  have h2 := set_page_fail bus (CLEARPAD_PAGE addr) (mutex_lock s) hsel
  have h3 : (clearpad_i2c_set_page bus (CLEARPAD_PAGE addr) (mutex_lock s)).2 =
      clearpad_i2c_t.mk s.page (s.trace ++ [Event.mutex_lock,
          Event.bus (BusOp.i2c_master_send [0xff, CLEARPAD_PAGE addr])
            (bus (s.trace ++ [Event.mutex_lock])
              (BusOp.i2c_master_send [0xff, CLEARPAD_PAGE addr]))]) := by
    rw [h2]; simp [mutex_lock, emit]
  have hp : (mutex_lock s).page = s.page := rfl
  simp only [clearpad_i2c_write_block, hp, ne_eq, h, not_false_eq_true, if_true, hneg, h3,
    not_true_eq_false, if_false]
  simp [mutex_unlock, emit]

theorem read_block_entry (bus : Bus) (addr : Nat) (len : Int) (s : clearpad_i2c_t)
    (hsel : CLEARPAD_PAGE addr ≠ s.page →
      bus (s.trace ++ [Event.mutex_lock]) (BusOp.i2c_master_send [0xff, CLEARPAD_PAGE addr]) = 2) :
    ∃ r data, data.all is_data_transfer = true ∧
      clearpad_i2c_read_block bus addr len s =
        (r, clearpad_i2c_t.mk (CLEARPAD_PAGE addr)
          (s.trace ++ (Event.mutex_lock :: select_events s.page (CLEARPAD_PAGE addr) ++ data ++
            [Event.mutex_unlock]))) := by
  obtain ⟨pre, hpre⟩ : ∃ pre : clearpad_i2c_t, pre = clearpad_i2c_t.mk (CLEARPAD_PAGE addr)
      (s.trace ++ Event.mutex_lock :: select_events s.page (CLEARPAD_PAGE addr)) := ⟨_, rfl⟩
  have hred : clearpad_i2c_read_block bus addr len s =
      (if (bus_call bus (BusOp.i2c_master_send [addr &&& 0xff]) pre).1 ≠ 1 then
        ((if (bus_call bus (BusOp.i2c_master_send [addr &&& 0xff]) pre).1 < 0
            then (bus_call bus (BusOp.i2c_master_send [addr &&& 0xff]) pre).1 else - EIO),
          mutex_unlock (bus_call bus (BusOp.i2c_master_send [addr &&& 0xff]) pre).2)
      else
        ((bus_call bus (BusOp.i2c_master_recv len)
            (bus_call bus (BusOp.i2c_master_send [addr &&& 0xff]) pre).2).1,
          mutex_unlock (bus_call bus (BusOp.i2c_master_recv len)
            (bus_call bus (BusOp.i2c_master_send [addr &&& 0xff]) pre).2).2)) := by
    rw [hpre]
    by_cases h : CLEARPAD_PAGE addr = s.page
    · simp [clearpad_i2c_read_block, mutex_lock, emit, h, select_events]
    · have h2 := set_page_ok bus (CLEARPAD_PAGE addr) (mutex_lock s) (hsel h)
      simp only [mutex_lock, emit] at h2
      simp [clearpad_i2c_read_block, mutex_lock, emit, h, select_events, h2,
        CLEARPAD_PAGE_SELECT_REGISTER]
  rw [hred]
  have hb1 : (bus_call bus (BusOp.i2c_master_send [addr &&& 0xff]) pre) =
      (bus pre.trace (BusOp.i2c_master_send [addr &&& 0xff]),
        clearpad_i2c_t.mk pre.page (pre.trace ++ [Event.bus (BusOp.i2c_master_send [addr &&& 0xff])
          (bus pre.trace (BusOp.i2c_master_send [addr &&& 0xff]))])) := rfl
  rw [hb1]
  by_cases h1 : bus pre.trace (BusOp.i2c_master_send [addr &&& 0xff]) = 1
  · refine ⟨bus (pre.trace ++ [Event.bus (BusOp.i2c_master_send [addr &&& 0xff]) 1])
        (BusOp.i2c_master_recv len),
      [Event.bus (BusOp.i2c_master_send [addr &&& 0xff]) 1,
        Event.bus (BusOp.i2c_master_recv len)
          (bus (pre.trace ++ [Event.bus (BusOp.i2c_master_send [addr &&& 0xff]) 1])
            (BusOp.i2c_master_recv len))], ?_, ?_⟩
    · simp [is_data_transfer, is_page_select]
    · simp only [h1, ne_eq, not_true_eq_false, if_false]
      rw [hpre]
      simp [bus_call, mutex_unlock, emit]
  · refine ⟨(if bus pre.trace (BusOp.i2c_master_send [addr &&& 0xff]) < 0
          then bus pre.trace (BusOp.i2c_master_send [addr &&& 0xff]) else - EIO),
      [Event.bus (BusOp.i2c_master_send [addr &&& 0xff])
        (bus pre.trace (BusOp.i2c_master_send [addr &&& 0xff]))], ?_, ?_⟩
    · simp [is_data_transfer, is_page_select]
    · simp only [ne_eq, h1, not_false_eq_true, if_true]
      rw [hpre]
      simp [mutex_unlock, emit]

theorem write_block_entry (bus : Bus) (lp64 : Bool) (slack : Nat → Nat) (addr : Nat)
    (buf : Nat → Nat) (len : Nat) (s : clearpad_i2c_t)
    (hsel : CLEARPAD_PAGE addr ≠ s.page →
      bus (s.trace ++ [Event.mutex_lock]) (BusOp.i2c_master_send [0xff, CLEARPAD_PAGE addr]) = 2) :
    ∃ r data, data.all is_data_transfer = true ∧
      clearpad_i2c_write_block bus lp64 true slack addr buf len s =
        (r, clearpad_i2c_t.mk (CLEARPAD_PAGE addr)
          (s.trace ++ (Event.mutex_lock :: select_events s.page (CLEARPAD_PAGE addr) ++ data ++
            [Event.mutex_unlock]))) := by
  obtain ⟨pre, hpre⟩ : ∃ pre : clearpad_i2c_t, pre = clearpad_i2c_t.mk (CLEARPAD_PAGE addr)
      (s.trace ++ Event.mutex_lock :: select_events s.page (CLEARPAD_PAGE addr)) := ⟨_, rfl⟩
  obtain ⟨msg, hmsg⟩ : ∃ msg : List Nat,
      msg = (List.range (sizeof_ptr lp64)).map (write_block_txbuf addr buf len slack) := ⟨_, rfl⟩
  have hnot : ∀ rc, is_data_transfer (Event.bus (BusOp.i2c_master_send msg) rc) = true := by
    intro rc
    rw [hmsg]
    cases lp64 <;> rfl
  have hred : clearpad_i2c_write_block bus lp64 true slack addr buf len s =
      (if bus pre.trace (BusOp.i2c_master_send msg) < 0 then
        (bus pre.trace (BusOp.i2c_master_send msg),
          clearpad_i2c_t.mk pre.page (pre.trace ++
            [Event.bus (BusOp.i2c_master_send msg) (bus pre.trace (BusOp.i2c_master_send msg)),
              Event.mutex_unlock]))
      else
        (bus pre.trace (BusOp.i2c_master_send msg) - 1,
          clearpad_i2c_t.mk pre.page (pre.trace ++
            [Event.bus (BusOp.i2c_master_send msg) (bus pre.trace (BusOp.i2c_master_send msg)),
              Event.mutex_unlock]))) := by
    rw [hpre, hmsg]
    by_cases h : CLEARPAD_PAGE addr = s.page
    · simp [clearpad_i2c_write_block, mutex_lock, mutex_unlock, bus_call, emit, h, select_events]
    · have h2 := set_page_ok bus (CLEARPAD_PAGE addr) (mutex_lock s) (hsel h)
      simp only [mutex_lock, emit] at h2
      simp [clearpad_i2c_write_block, mutex_lock, mutex_unlock, bus_call, emit, h,
        select_events, h2, CLEARPAD_PAGE_SELECT_REGISTER]
  rw [hred]
  by_cases h1 : bus pre.trace (BusOp.i2c_master_send msg) < 0
  · refine ⟨bus pre.trace (BusOp.i2c_master_send msg),
      [Event.bus (BusOp.i2c_master_send msg) (bus pre.trace (BusOp.i2c_master_send msg))],
      ?_, ?_⟩
    · simp [hnot]
    · simp only [h1, if_true]
      rw [hpre]
      simp
  · refine ⟨bus pre.trace (BusOp.i2c_master_send msg) - 1,
      [Event.bus (BusOp.i2c_master_send msg) (bus pre.trace (BusOp.i2c_master_send msg))],
      ?_, ?_⟩
    · simp [hnot]
    · simp only [h1, if_false]
      rw [hpre]
      simp


theorem page_discipline_cases (bus : Bus) (addr : Nat) (s : clearpad_i2c_t)
    (res : Option (Int × clearpad_i2c_t))
    (hok : (CLEARPAD_PAGE addr ≠ s.page →
        bus (s.trace ++ [Event.mutex_lock])
          (BusOp.i2c_master_send [0xff, CLEARPAD_PAGE addr]) = 2) →
      ∃ r data, data.all is_data_transfer = true ∧
        res = some (r, clearpad_i2c_t.mk (CLEARPAD_PAGE addr)
          (s.trace ++ (Event.mutex_lock :: select_events s.page (CLEARPAD_PAGE addr) ++ data ++
            [Event.mutex_unlock]))))
    (hfail : CLEARPAD_PAGE addr ≠ s.page →
      bus (s.trace ++ [Event.mutex_lock])
        (BusOp.i2c_master_send [0xff, CLEARPAD_PAGE addr]) ≠ 2 →
      res = some ((clearpad_i2c_set_page bus (CLEARPAD_PAGE addr) (mutex_lock s)).1,
        clearpad_i2c_t.mk s.page (s.trace ++ [Event.mutex_lock,
          Event.bus (BusOp.i2c_master_send [0xff, CLEARPAD_PAGE addr])
            (bus (s.trace ++ [Event.mutex_lock])
              (BusOp.i2c_master_send [0xff, CLEARPAD_PAGE addr])),
          Event.mutex_unlock]))) :
    page_discipline bus addr s res := by
  by_cases hsel : CLEARPAD_PAGE addr ≠ s.page →
      bus (s.trace ++ [Event.mutex_lock]) (BusOp.i2c_master_send [0xff, CLEARPAD_PAGE addr]) = 2
  · obtain ⟨r, data, hdata, hres⟩ := hok hsel
    exact page_discipline_ok bus addr s res r data hsel hdata hres
  · have hne : CLEARPAD_PAGE addr ≠ s.page := fun h => hsel (fun h2 => absurd h h2)
    have hrc : bus (s.trace ++ [Event.mutex_lock])
        (BusOp.i2c_master_send [0xff, CLEARPAD_PAGE addr]) ≠ 2 := fun h => hsel (fun _ => h)
    exact page_discipline_fail bus addr s res hne hrc (hfail hne hrc)

/-- C8, amended: each of `clearpad_i2c_read`, `clearpad_i2c_write` (both with
`len <= 255`), `clearpad_i2c_read_block` and, when its allocation succeeds,
`clearpad_i2c_write_block` keeps the page discipline: it sends a page-select
message exactly when `CLEARPAD_PAGE(addr)` differs from the cached page; if
that select fails it returns the negative code with no data transfer and the
cached page unchanged; and the cached page is `CLEARPAD_PAGE(addr)` at every
data transfer.  When its allocation fails, `clearpad_i2c_write_block` returns
`-ENOMEM` and does nothing else. -/
theorem paged_access_page_discipline (bus : Bus) (lp64 : Bool) (slack : Nat → Nat)
    (addr : Nat) (buf : Nat → Nat) (len : Nat) (rlen : Int) (wlen : Nat) (s : clearpad_i2c_t)
    (hlen : len ≤ 255) :
    page_discipline bus addr s (clearpad_i2c_read bus addr len s) ∧
    page_discipline bus addr s (clearpad_i2c_write bus addr buf len s) ∧
    page_discipline bus addr s (some (clearpad_i2c_read_block bus addr rlen s)) ∧
    page_discipline bus addr s
      (some (clearpad_i2c_write_block bus lp64 true slack addr buf wlen s)) ∧
    clearpad_i2c_write_block bus lp64 false slack addr buf wlen s = (- ENOMEM, s) := by
  refine ⟨?_, ?_, ?_, ?_, rfl⟩
  · apply page_discipline_cases
    · intro hsel
      obtain ⟨r, evs, h1, h2⟩ := read_loop_total bus (CLEARPAD_REG addr) len (len + 1) 0 32
        (clearpad_i2c_t.mk (CLEARPAD_PAGE addr)
          (s.trace ++ Event.mutex_lock :: select_events s.page (CLEARPAD_PAGE addr)))
        (by omega) (by omega) (by push_cast; omega)
      refine ⟨r, evs, h2, ?_⟩
      rw [read_entry bus addr len s hsel, h1]
      simp [mutex_unlock, emit]
    · exact read_entry_fail bus addr len s
  · apply page_discipline_cases
    · intro hsel
      obtain ⟨m, _, _, hm⟩ := write_loop_spec bus (CLEARPAD_REG addr) buf len hlen (len + 1) 0
        (clearpad_i2c_t.mk (CLEARPAD_PAGE addr)
          (s.trace ++ Event.mutex_lock :: select_events s.page (CLEARPAD_PAGE addr)))
        (Nat.zero_le _) (by omega)
      rw [write_entry bus addr buf len s hsel]
      rcases hm with ⟨_, h2⟩ | ⟨_, rc, _, _, h4⟩
      · refine ⟨(len : Int),
          (List.range (m - 0)).map (fun j => write_byte (CLEARPAD_REG addr) buf (0 + j) 0),
          ?_, ?_⟩
        · simp [List.all_map, write_byte, is_data_transfer, is_page_select]
        · rw [h2]
          simp [mutex_unlock, emit]
      · refine ⟨rc,
          (List.range (m - 0)).map (fun j => write_byte (CLEARPAD_REG addr) buf (0 + j) 0) ++
            [write_byte (CLEARPAD_REG addr) buf m rc], ?_, ?_⟩
        · simp [List.all_map, write_byte, is_data_transfer, is_page_select]
        · rw [h4]
          simp [mutex_unlock, emit]
    · exact write_entry_fail bus addr buf len s
  · apply page_discipline_cases
    · intro hsel
      obtain ⟨r, data, h1, h2⟩ := read_block_entry bus addr rlen s hsel
      exact ⟨r, data, h1, by rw [h2]⟩
    · intro h hrc
      rw [read_block_entry_fail bus addr rlen s h hrc]
  · apply page_discipline_cases
    · intro hsel
      obtain ⟨r, data, h1, h2⟩ := write_block_entry bus lp64 slack addr buf wlen s hsel
      exact ⟨r, data, h1, by rw [h2]⟩
    · intro h hrc
      rw [write_block_entry_fail bus lp64 slack addr buf wlen s h hrc]

theorem paged_access_page_discipline_witness :
    (5 : Nat) ≤ 255 ∧
    page_discipline third_write_fails 0x01fe fresh
      (clearpad_i2c_read third_write_fails 0x01fe 5 fresh) ∧
    page_discipline third_write_fails 0x01fe fresh
      (clearpad_i2c_write third_write_fails 0x01fe count_up 5 fresh) ∧
    page_discipline third_write_fails 0x01fe fresh
      (some (clearpad_i2c_read_block third_write_fails 0x01fe 5 fresh)) ∧
    page_discipline third_write_fails 0x01fe fresh
      (some (clearpad_i2c_write_block third_write_fails true true zeroes 0x01fe count_up 5
        fresh)) ∧
    clearpad_i2c_write_block third_write_fails true false zeroes 0x01fe count_up 5 fresh =
      (- ENOMEM, fresh) :=
  ⟨by decide,
    paged_access_page_discipline third_write_fails true zeroes 0x01fe count_up 5 5 5 fresh
      (by decide)⟩

end Clearpad
